import Mathlib

/-!
Shallow embedding of the asset synchronization and upload engine of
`dandi/upload.py` (the functions `upload`, `process_path`,
`check_replace_asset`, `skip_file`, `error_file`), together with theorems
settling the frozen claims about the natural-language specification.

Modelling conventions:
* Python datetimes (local file mtimes, the remote `blobDateModified`) are
  embedded as `Int` timestamps; `ensure_datetime` applied to an already
  parsed value is the identity, and datetime comparison is `Int` comparison.
* The pyout records yielded by `process_path` are embedded as the `Rec`
  structure, with one optional field per dictionary key the code emits.
* Python exceptions are embedded as the `Exc` inductive; `raise` becomes an
  explicit `.raised` / `.error` value threaded through the control flow.
* The remote asset raw metadata is embedded as `RemoteMeta`: the optional
  `blobDateModified` timestamp and the `digest` dictionary as an
  association list from algorithm name to digest value.
-/

/-- A content digest: algorithm identifier plus opaque value string
(`dandi.misctypes.Digest` as consumed by `check_replace_asset`, where
`local_etag.algorithm.value` is the string name of the algorithm). -/
structure Digest where
  algorithm : String
  value : String
deriving DecidableEq

/-- One pyout record yielded by `process_path` or `check_replace_asset`:
a Python dict with any of the keys `size`, `status`, `message`, `errors`.
A field is `none` when the corresponding key is absent from the dict. -/
structure Rec where
  size : Option Nat := none
  status : Option String := none
  message : Option String := none
  errors : Option Nat := none
deriving DecidableEq

/-- The Python exceptions raised by the embedded code paths:
`UploadError`, `FileExistsError` (policy `error`), `ValueError` (invalid
`existing` value), `TypeError` (from the delete-sync prefix reduction), and
a failed `assert`. -/
inductive Exc where
  | uploadError (msg : String)
  | fileExistsError (msg : String)
  | valueError (msg : String)
  | typeError (msg : String)
  | assertionError
deriving DecidableEq

/-- The message `str(exc)` used when an exception is rendered into an
`error_file` record. -/
def excMessage : Exc → String
  | .uploadError msg => msg
  | .fileExistsError msg => msg
  | .valueError msg => msg
  | .typeError msg => msg
  | .assertionError => ""

/-- The two attributes of the local asset that `check_replace_asset` reads:
whether it is a `ZarrAsset`, and `local_asset.modified` (its mtime). -/
structure LocalAssetInfo where
  isZarr : Bool
  modified : Int
deriving DecidableEq

/-- The raw metadata of the remote asset that `check_replace_asset` reads:
`blobDateModified` (optional, already parsed to a timestamp) and the
`digest` dictionary mapping algorithm names to digest values. -/
structure RemoteMeta where
  blobDateModified : Option Int
  digest : List (String × String)
deriving DecidableEq

/-- The function `dandi.upload.skip_file`: a record with status `skipped` and a message. -/
def skip_file (msg : String) : Rec :=
  { status := some "skipped", message := some msg }

/-- The function `dandi.upload.error_file`: a record with status `ERROR` and a message. -/
def error_file (msg : String) : Rec :=
  { status := some "ERROR", message := some msg }

/-- The condition `remote_mtime is not None and remote_mtime >= local_mtime`
from the `refresh` branch of `check_replace_asset`. -/
def remoteMtimeGE (remote_mtime : Option Int) (local_mtime : Int) : Bool :=
  match remote_mtime with
  | some rm => decide (rm ≥ local_mtime)
  | none => false

/-- The `remote_file_status` expression computed inline in
`check_replace_asset` (upload.py lines 407-420): `same` when the digests
match and the mtimes are equal, else `newer` / `older` by mtime comparison,
else `diff`; `no mtime` when `blobDateModified` is absent. -/
def remote_file_status_of (remote_etag : Option String) (local_etag_value : String)
    (remote_mtime : Option Int) (local_mtime : Int) : String :=
  match remote_mtime with
  | some rm =>
      if remote_etag = some local_etag_value ∧ rm = local_mtime then "same"
      else if rm > local_mtime then "newer"
      else if rm < local_mtime then "older"
      else "diff"
  | none => "no mtime"

deriving instance DecidableEq for Except

/-- A single-character string holding an ASCII apostrophe (used to embed
the Python `repr` quoting in the `ValueError` message). -/
def apos : String := String.singleton (Char.ofNat 39)

/-- The message of the `ValueError` raised for an invalid `existing` value:
the Python f-string whose text is `invalid value for` followed by the
quoted word `existing`, a colon, and the `repr` of the given value. -/
def invalidExistingMsg (existing : String) : String :=
  "invalid value for " ++ apos ++ "existing" ++ apos ++ ": " ++ apos ++ existing ++ apos

/-- The function `dandi.upload.check_replace_asset`: the replace decision engine.
Returns `(replace asset, message to yield)` on success; an exception is
an `.error` value (`FileExistsError` for policy `error`, `ValueError` for
an invalid policy string, a failed assertion when a non-Zarr asset has no
local digest). -/
def check_replace_asset (local_asset : LocalAssetInfo) (remote_asset : RemoteMeta)
    (existing : String) (local_etag : Option Digest) : Except Exc (Bool × Rec) :=
  if local_asset.isZarr then
    .ok (true, { message := some "exists - reuploading" })
  else
    match local_etag with
    | none => .error .assertionError
    | some etag =>
      let local_mtime := local_asset.modified
      let remote_etag := remote_asset.digest.lookup etag.algorithm
      let remote_mtime := remote_asset.blobDateModified
      let remote_file_status :=
        remote_file_status_of remote_etag etag.value remote_mtime local_mtime
      let exists_msg := "exists (" ++ remote_file_status ++ ")"
      let replaceRes : Except Exc (Bool × Rec) :=
        .ok (true, { message := some (exists_msg ++ " - reuploading") })
      if existing = "error" then
        .error (.fileExistsError exists_msg)
      else if existing = "skip" then
        .ok (false, skip_file exists_msg)
      else if existing = "overwrite" then
        if remote_etag = some etag.value then .ok (false, skip_file exists_msg)
        else replaceRes
      else if existing = "refresh" then
        if remote_etag = some etag.value then .ok (false, skip_file "file exists")
        else if remoteMtimeGE remote_mtime local_mtime then .ok (false, skip_file exists_msg)
        else replaceRes
      else if existing = "force" then
        replaceRes
      else
        .error (.valueError (invalidExistingMsg existing))

/-- C1: for every non-chunked local asset with a remote record present,
policy `refresh` skips with reason `file exists` when the digests agree;
otherwise it skips with the freshness message when the remote mtime is
present and at least the local mtime; otherwise it replaces. -/
theorem refresh_policy_decision (la : LocalAssetInfo) (r : RemoteMeta) (etag : Digest)
    (hz : la.isZarr = false) :
    (r.digest.lookup etag.algorithm = some etag.value →
      check_replace_asset la r "refresh" (some etag) =
        .ok (false, skip_file "file exists")) ∧
    (r.digest.lookup etag.algorithm ≠ some etag.value →
      remoteMtimeGE r.blobDateModified la.modified = true →
      check_replace_asset la r "refresh" (some etag) =
        .ok (false, skip_file ("exists (" ++
          remote_file_status_of (r.digest.lookup etag.algorithm) etag.value
            r.blobDateModified la.modified ++ ")"))) ∧
    (r.digest.lookup etag.algorithm ≠ some etag.value →
      remoteMtimeGE r.blobDateModified la.modified = false →
      check_replace_asset la r "refresh" (some etag) =
        .ok (true, { message := some ("exists (" ++
          remote_file_status_of (r.digest.lookup etag.algorithm) etag.value
            r.blobDateModified la.modified ++ ")" ++ " - reuploading") })) := by
  refine ⟨fun h => ?_, fun h hge => ?_, fun h hge => ?_⟩ <;>
    simp [check_replace_asset, hz, *]

/-- Witness for C1 at a concrete input: equal digests under `refresh`
give Skip with reason `file exists`. -/
theorem refresh_policy_decision_witness :
    check_replace_asset ⟨false, 5⟩ ⟨some 5, [("dandi-etag", "d1")]⟩ "refresh"
      (some ⟨"dandi-etag", "d1"⟩) = .ok (false, skip_file "file exists") :=
  (refresh_policy_decision ⟨false, 5⟩ ⟨some 5, [("dandi-etag", "d1")]⟩
    ⟨"dandi-etag", "d1"⟩ rfl).1 (by decide)

/-- C2 counterexample: under policy `overwrite` with equal digests the code
skips with the freshness message (`exists (newer)` here, `exists (same)`
when the mtimes are also equal), never with the reason
`exists — same content` stated by the claim. -/
theorem overwrite_reason_counterexample :
    check_replace_asset ⟨false, 5⟩ ⟨some 6, [("dandi-etag", "d1")]⟩ "overwrite"
      (some ⟨"dandi-etag", "d1"⟩) = .ok (false, skip_file "exists (newer)") ∧
    "exists (newer)" ≠ "exists — same content" ∧
    "exists (newer)" ≠ "exists - same content" :=
  ⟨by decide, by decide, by decide⟩

/-- C2 amended: under policy `overwrite`, equal digests give Skip whose
reason is the freshness message `exists (<label>)`, and differing digests
give Replace. -/
theorem overwrite_policy_decision (la : LocalAssetInfo) (r : RemoteMeta) (etag : Digest)
    (hz : la.isZarr = false) :
    (r.digest.lookup etag.algorithm = some etag.value →
      check_replace_asset la r "overwrite" (some etag) =
        .ok (false, skip_file ("exists (" ++
          remote_file_status_of (r.digest.lookup etag.algorithm) etag.value
            r.blobDateModified la.modified ++ ")"))) ∧
    (r.digest.lookup etag.algorithm ≠ some etag.value →
      check_replace_asset la r "overwrite" (some etag) =
        .ok (true, { message := some ("exists (" ++
          remote_file_status_of (r.digest.lookup etag.algorithm) etag.value
            r.blobDateModified la.modified ++ ")" ++ " - reuploading") })) := by
  refine ⟨fun h => ?_, fun h => ?_⟩ <;> simp [check_replace_asset, hz, *]

/-- Witness for C2 amended at a concrete input: equal digests, newer remote
mtime, Skip with the freshness message. -/
theorem overwrite_policy_decision_witness :
    check_replace_asset ⟨false, 5⟩ ⟨some 6, [("dandi-etag", "d1")]⟩ "overwrite"
      (some ⟨"dandi-etag", "d1"⟩) = .ok (false, skip_file ("exists (" ++
        remote_file_status_of (some "d1") "d1" (some 6) 5 ++ ")")) :=
  (overwrite_policy_decision ⟨false, 5⟩ ⟨some 6, [("dandi-etag", "d1")]⟩
    ⟨"dandi-etag", "d1"⟩ rfl).1 (by decide)

/-- C3: for a chunked (Zarr) asset with a remote record the decision is
always Replace with message `exists - reuploading`, for every policy
string and independently of any digest (local or remote), which is never
consulted. -/
theorem zarr_always_replace (la : LocalAssetInfo) (r : RemoteMeta) (existing : String)
    (local_etag : Option Digest) (hz : la.isZarr = true) :
    check_replace_asset la r existing local_etag =
      .ok (true, { message := some "exists - reuploading" }) := by
  simp [check_replace_asset, hz]

/-- Witness for C3 at a concrete input, under policy `error` (which for a
non-chunked asset would raise). -/
theorem zarr_always_replace_witness :
    check_replace_asset ⟨true, 5⟩ ⟨some 6, [("dandi-etag", "d1")]⟩ "error" none =
      .ok (true, { message := some "exists - reuploading" }) :=
  zarr_always_replace ⟨true, 5⟩ ⟨some 6, [("dandi-etag", "d1")]⟩ "error" none rfl

/-- C7 counterexample: the engine is a pure function, so a second run on an
unchanged local/remote state reproduces the first decision.  On this
unchanged state (digests differ, remote mtime older) policy `refresh`
yields Replace on every run, never Skip, refuting the claim that the second
run always yields Skip. -/
theorem rerun_skip_counterexample :
    check_replace_asset ⟨false, 5⟩ ⟨some 4, [("dandi-etag", "d2")]⟩ "refresh"
      (some ⟨"dandi-etag", "d1"⟩) =
      .ok (true, { message := some "exists (older) - reuploading" }) := by
  decide

/-- C7 amended: rerunning yields Skip exactly on states the engine skips;
in particular, after a completed upload has made the remote digest equal to
the local digest, a second run over the unchanged state yields Skip under
each of the policies `skip`, `overwrite` and `refresh` (under `force` the
decision is Replace again, under `error` it raises, and chunked assets are
always Replace). -/
theorem rerun_skip_after_digest_match (la : LocalAssetInfo) (r : RemoteMeta) (etag : Digest)
    (existing : String) (hz : la.isZarr = false)
    (hp : existing = "skip" ∨ existing = "overwrite" ∨ existing = "refresh")
    (hd : r.digest.lookup etag.algorithm = some etag.value) :
    ∃ msg, check_replace_asset la r existing (some etag) = .ok (false, skip_file msg) := by
  rcases hp with rfl | rfl | rfl
  · exact ⟨"exists (" ++ remote_file_status_of (r.digest.lookup etag.algorithm) etag.value
      r.blobDateModified la.modified ++ ")", by simp [check_replace_asset, hz]⟩
  · exact ⟨"exists (" ++ remote_file_status_of (r.digest.lookup etag.algorithm) etag.value
      r.blobDateModified la.modified ++ ")", by simp [check_replace_asset, hz, hd]⟩
  · exact ⟨"file exists", by simp [check_replace_asset, hz, hd]⟩

/-- Witness for C7 amended at a concrete input: unchanged state with equal
digests under `refresh` skips on the second run. -/
theorem rerun_skip_after_digest_match_witness :
    ∃ msg, check_replace_asset ⟨false, 5⟩ ⟨some 5, [("dandi-etag", "d1")]⟩ "refresh"
      (some ⟨"dandi-etag", "d1"⟩) = .ok (false, skip_file msg) :=
  rerun_skip_after_digest_match ⟨false, 5⟩ ⟨some 5, [("dandi-etag", "d1")]⟩
    ⟨"dandi-etag", "d1"⟩ "refresh" rfl (Or.inr (Or.inr rfl)) (by decide)

/-- C9 counterexample: the freshness label `diff` is produced when the
digests differ and the mtimes are equal, not (as the claim states) when
the mtimes differ; and when the mtimes differ with remote mtime below the
local one the label is `older`, not `diff`. -/
theorem freshness_diff_counterexample :
    remote_file_status_of (some "d2") "d1" (some 5) 5 = "diff" ∧
    remote_file_status_of (some "d2") "d1" (some 4) 5 = "older" :=
  ⟨by decide, by decide⟩

/-- C9 amended: with the remote mtime present the freshness label is
`same` iff the digests agree and the mtimes are equal, `newer` iff the
remote mtime is greater, `older` iff it is smaller, and `diff` iff the
digests differ and the mtimes are equal; with the remote mtime absent the
label is `no mtime`.  Moreover the `refresh` branch consults only digest
equality and the single mtime comparison: its boolean replace decision is
exactly (not digest-equal) and (not remote-mtime-at-least-local). -/
theorem freshness_labels :
    (∀ (re : Option String) (v : String) (rm lm : Int),
      (remote_file_status_of re v (some rm) lm = "same" ↔ re = some v ∧ rm = lm) ∧
      (remote_file_status_of re v (some rm) lm = "newer" ↔ rm > lm) ∧
      (remote_file_status_of re v (some rm) lm = "older" ↔ rm < lm) ∧
      (remote_file_status_of re v (some rm) lm = "diff" ↔ ¬re = some v ∧ rm = lm)) ∧
    (∀ (re : Option String) (v : String) (lm : Int),
      remote_file_status_of re v none lm = "no mtime") ∧
    (∀ (la : LocalAssetInfo) (r : RemoteMeta) (etag : Digest), la.isZarr = false →
      ∃ rec, check_replace_asset la r "refresh" (some etag) =
        .ok ((!decide (r.digest.lookup etag.algorithm = some etag.value) &&
              !remoteMtimeGE r.blobDateModified la.modified), rec)) := by
  refine ⟨fun re v rm lm => ?_, fun re v lm => rfl, fun la r etag hz => ?_⟩
  · have hsome : remote_file_status_of re v (some rm) lm =
        if re = some v ∧ rm = lm then "same"
        else if rm > lm then "newer"
        else if rm < lm then "older" else "diff" := rfl
    rw [hsome]
    refine ⟨?_, ?_, ?_, ?_⟩ <;> split_ifs with h1 h2 h3 <;> simp_all <;> try omega
    exact ⟨fun hre => h1 hre (le_antisymm h2 h3), le_antisymm h2 h3⟩
  · by_cases hd : r.digest.lookup etag.algorithm = some etag.value
    · exact ⟨skip_file "file exists", by simp [check_replace_asset, hz, hd]⟩
    · by_cases hm : remoteMtimeGE r.blobDateModified la.modified
      · exact ⟨skip_file ("exists (" ++ remote_file_status_of
          (r.digest.lookup etag.algorithm) etag.value r.blobDateModified la.modified
          ++ ")"), by simp [check_replace_asset, hz, hd, hm]⟩
      · exact ⟨{ message := some ("exists (" ++ remote_file_status_of
          (r.digest.lookup etag.algorithm) etag.value r.blobDateModified la.modified
          ++ ")" ++ " - reuploading") }, by
            simp only [Bool.not_eq_true] at hm
            simp [check_replace_asset, hz, hd, hm]⟩

/-- Witness for C9 amended at concrete inputs: equal digests and equal
mtimes give the label `same`. -/
theorem freshness_labels_witness :
    remote_file_status_of (some "d1") "d1" (some 5) 5 = "same" :=
  ((freshness_labels.1 (some "d1") "d1" 5 5).1).mpr ⟨rfl, rfl⟩

/-- The kind of `DandiFile` handed to `process_path`:
`DandisetMetadataFile`, a plain blob `LocalAsset`, or a `ZarrAsset`
(which is also a `LocalDirectoryAsset`, hence has no up-front size). -/
inductive FileKind where
  | metadataFile
  | blobAsset
  | zarrAsset
deriving DecidableEq

/-- The failure modes of reading `dfile.size`: `FileNotFoundError` or any
other exception (whose rendered message the code truncates to 50
characters). -/
inductive SizeError where
  | fileNotFound
  | other (msg : String)
deriving DecidableEq

/-- The per-asset inputs of `process_path`: the file kind, the logical
path, the outcome of reading the size, the number of ERROR-severity
validation results, the outcome of computing the digest, and the mtime. -/
structure AssetSpec where
  path : String
  kind : FileKind
  sizeResult : Except SizeError Nat
  validationErrors : Nat
  digestResult : Except String Digest
  modified : Int
deriving DecidableEq

/-- One record yielded by `dfile.iter_upload`: a status string plus, for
`uploading` events, the `current` byte count that the code pops off before
forwarding the record. -/
structure UploadEvent where
  status : String
  current : Option Nat := none
deriving DecidableEq

/-- The run-wide and per-asset environment of one `process_path` call:
the `existing` conflict policy, the `validation` mode, whether the
dandiset metadata should be uploaded, the remote record found at the
asset path (`None` embeds `NotFoundError`), the outcome of metadata
extraction, and the progress events produced by `iter_upload`. -/
structure Env where
  existing : String
  validation : String
  upload_dandiset_metadata : Bool
  remote : Option RemoteMeta
  metadataResult : Except String Unit
  uploadEvents : List UploadEvent

/-- How one phase of `process_path` exits: fall through to the next phase,
return from the generator early, or raise an exception. -/
inductive PhaseExit where
  | next
  | ret
  | raised (e : Exc)
deriving DecidableEq

/-- Phase 1 of `process_path` (upload.py lines 160-167): for every file
that is not a `LocalDirectoryAsset`, yield its size; a missing file
raises UploadError FileNotFound, any other failure raises UploadError with
the truncated message. -/
def pp_size (a : AssetSpec) : List Rec × PhaseExit :=
  if a.kind = .zarrAsset then ([], .next)
  else
    match a.sizeResult with
    | .ok n => ([{ size := some n }], .next)
    | .error .fileNotFound => ([], .raised (.uploadError "File not found"))
    | .error (.other msg) => ([], .raised (.uploadError (msg.take 50)))

/-- Phase 2 of `process_path` (lines 173-198): for a `LocalAsset` with
validation not skipped, yield `pre-validating` and the error count; with
blocking errors under `require` raise UploadError failed validation, with
no errors yield `validated`. -/
def pp_validate (a : AssetSpec) (env : Env) : List Rec × PhaseExit :=
  if (a.kind = .blobAsset ∨ a.kind = .zarrAsset) ∧ env.validation ≠ "skip" then
    if a.validationErrors ≠ 0 then
      if env.validation = "require" then
        ([{ status := some "pre-validating" }, { errors := some a.validationErrors }],
         .raised (.uploadError "failed validation"))
      else
        ([{ status := some "pre-validating" }, { errors := some a.validationErrors }], .next)
    else
      ([{ status := some "pre-validating" }, { errors := some a.validationErrors },
        { status := some "validated" }], .next)
  else ([], .next)

/-- Phase 3 of `process_path` (lines 204-215): a `DandisetMetadataFile` is
either updated unconditionally when requested or skipped with a fixed
reason, and then the generator returns. -/
def pp_special (a : AssetSpec) (env : Env) : List Rec × PhaseExit :=
  if a.kind = .metadataFile then
    if env.upload_dandiset_metadata then
      ([{ status := some "updating metadata" }, { status := some "updated metadata" }], .ret)
    else
      ([skip_file "should be edited online"], .ret)
  else ([], .next)

/-- Phase 4 of `process_path` (lines 221-229): a Zarr asset has no
up-front digest; any other asset yields `digesting` and then computes the
digest, a failure raising UploadError. -/
def pp_digest (a : AssetSpec) : List Rec × Except Exc (Option Digest) :=
  if a.kind = .zarrAsset then ([], .ok none)
  else
    match a.digestResult with
    | .ok d => ([{ status := some "digesting" }], .ok (some d))
    | .error msg =>
        ([{ status := some "digesting" }],
         .error (.uploadError ("failed to compute digest: " ++ msg)))

/-- Phase 5 of `process_path` (lines 231-245): look the asset path up on
the remote dandiset; when present, consult `check_replace_asset`, yield
its record, and return early when the decision is not to replace. -/
def pp_compare (a : AssetSpec) (env : Env) (file_etag : Option Digest) :
    List Rec × PhaseExit :=
  match env.remote with
  | none => ([], .next)
  | some extant =>
    match check_replace_asset ⟨a.kind = .zarrAsset, a.modified⟩ extant
        env.existing file_etag with
    | .error e => ([], .raised e)
    | .ok (replace, out) => if replace then ([out], .next) else ([out], .ret)

/-- The loop over `dfile.iter_upload` (lines 266-280): `uploading` events
are forwarded with their `current` count popped, only the first
`post-validating` event is forwarded, and every other event is forwarded
unchanged. -/
def uploadLoop : List UploadEvent → Bool → List Rec
  | [], _ => []
  | r :: rest, validating =>
    if r.status = "uploading" then
      { status := some "uploading" } :: uploadLoop rest validating
    else if r.status = "post-validating" then
      if validating then uploadLoop rest validating
      else { status := some "post-validating" } :: uploadLoop rest true
    else
      { status := some r.status } :: uploadLoop rest validating

/-- Phases 6-8 of `process_path` (lines 254-281): yield
`extracting metadata`, extract (a failure raising UploadError), yield
`uploading`, forward the upload events, and finish with `done`. -/
def pp_upload (env : Env) : List Rec × PhaseExit :=
  match env.metadataResult with
  | .error e =>
      ([{ status := some "extracting metadata" }],
       .raised (.uploadError ("failed to extract metadata: " ++ e)))
  | .ok _ =>
      ([{ status := some "extracting metadata" }, { status := some "uploading" }] ++
        uploadLoop env.uploadEvents false ++ [{ status := some "done" }], .next)

/-- The generator `dandi.upload.process_path` for one `DandiFile`: the sequence of
records the generator yields, paired with the exception captured by its
`except` block (which also appends an `error_file` record), `none` when
the generator finishes or returns early. -/
def process_path (a : AssetSpec) (env : Env) : List Rec × Option Exc :=
  match pp_size a with
  | (ys1, .raised e) => (ys1 ++ [error_file (excMessage e)], some e)
  | (ys1, .ret) => (ys1, none)
  | (ys1, .next) =>
    match pp_validate a env with
    | (ys2, .raised e) => (ys1 ++ ys2 ++ [error_file (excMessage e)], some e)
    | (ys2, .ret) => (ys1 ++ ys2, none)
    | (ys2, .next) =>
      match pp_special a env with
      | (ys3, .raised e) => (ys1 ++ ys2 ++ ys3 ++ [error_file (excMessage e)], some e)
      | (ys3, .ret) => (ys1 ++ ys2 ++ ys3, none)
      | (ys3, .next) =>
        match pp_digest a with
        | (ys4, .error e) => (ys1 ++ ys2 ++ ys3 ++ ys4 ++ [error_file (excMessage e)], some e)
        | (ys4, .ok file_etag) =>
          match pp_compare a env file_etag with
          | (ys5, .raised e) =>
              (ys1 ++ ys2 ++ ys3 ++ ys4 ++ ys5 ++ [error_file (excMessage e)], some e)
          | (ys5, .ret) => (ys1 ++ ys2 ++ ys3 ++ ys4 ++ ys5, none)
          | (ys5, .next) =>
            match pp_upload env with
            | (ys6, .raised e) =>
                (ys1 ++ ys2 ++ ys3 ++ ys4 ++ ys5 ++ ys6 ++
                  [error_file (excMessage e)], some e)
            | (ys6, _) => (ys1 ++ ys2 ++ ys3 ++ ys4 ++ ys5 ++ ys6, none)

/-- C4 counterexample: with policy `error` and a remote record present, the
generator yields `digesting` (the digest is computed) before the remote
record is even looked up, and only then errors with the FileExistsError;
this refutes the claim that the job errors without a digest having been
computed. -/
theorem error_policy_digest_counterexample :
    ({ status := some "digesting" } : Rec) ∈
      (process_path
        { path := "x.nwb", kind := .blobAsset, sizeResult := .ok 5,
          validationErrors := 0, digestResult := .ok ⟨"dandi-etag", "d1"⟩, modified := 10 }
        { existing := "error", validation := "require",
          upload_dandiset_metadata := false,
          remote := some ⟨some 10, [("dandi-etag", "d1")]⟩,
          metadataResult := .ok (), uploadEvents := [] }).1 ∧
    (process_path
        { path := "x.nwb", kind := .blobAsset, sizeResult := .ok 5,
          validationErrors := 0, digestResult := .ok ⟨"dandi-etag", "d1"⟩, modified := 10 }
        { existing := "error", validation := "require",
          upload_dandiset_metadata := false,
          remote := some ⟨some 10, [("dandi-etag", "d1")]⟩,
          metadataResult := .ok (), uploadEvents := [] }).2 =
      some (.fileExistsError "exists (same)") := by
  exact ⟨by decide, by decide⟩

/-- C4 amended: under policy `error`, for every valid non-chunked asset
whose path has a remote record, the `FileExistsError` is raised and the
job errors immediately after the comparison; the digest, however, has
already been computed (the `digesting` status precedes the error in the
yielded trace), since `process_path` digests before consulting the remote
record. -/
theorem error_policy_fail_after_digest (a : AssetSpec) (env : Env) (n : Nat) (d : Digest)
    (r : RemoteMeta)
    (hk : a.kind = .blobAsset) (hs : a.sizeResult = .ok n) (hv : a.validationErrors = 0)
    (hvr : env.validation = "require") (hd : a.digestResult = .ok d)
    (hr : env.remote = some r) (he : env.existing = "error") :
    process_path a env =
      ([{ size := some n }, { status := some "pre-validating" }, { errors := some 0 },
        { status := some "validated" }, { status := some "digesting" },
        error_file ("exists (" ++ remote_file_status_of (r.digest.lookup d.algorithm)
          d.value r.blobDateModified a.modified ++ ")")],
       some (.fileExistsError ("exists (" ++ remote_file_status_of
          (r.digest.lookup d.algorithm) d.value r.blobDateModified a.modified ++ ")"))) := by
  simp [process_path, pp_size, pp_validate, pp_special, pp_digest, pp_compare,
        check_replace_asset, excMessage, error_file, hk, hs, hv, hvr, hd, hr, he]

/-- Witness for C4 amended at a concrete input. -/
theorem error_policy_fail_after_digest_witness :
    process_path
      { path := "x.nwb", kind := .blobAsset, sizeResult := .ok 5,
        validationErrors := 0, digestResult := .ok ⟨"dandi-etag", "d1"⟩, modified := 10 }
      { existing := "error", validation := "require",
        upload_dandiset_metadata := false,
        remote := some ⟨some 10, [("dandi-etag", "d1")]⟩,
        metadataResult := .ok (), uploadEvents := [] } =
      ([{ size := some 5 }, { status := some "pre-validating" }, { errors := some 0 },
        { status := some "validated" }, { status := some "digesting" },
        error_file ("exists (" ++ remote_file_status_of (some "d1") "d1" (some 10) 10
          ++ ")")],
       some (.fileExistsError ("exists (" ++ remote_file_status_of (some "d1") "d1"
          (some 10) 10 ++ ")"))) :=
  error_policy_fail_after_digest _ _ 5 ⟨"dandi-etag", "d1"⟩ ⟨some 10, [("dandi-etag", "d1")]⟩
    rfl rfl rfl rfl rfl rfl rfl

/-- Any exception raised by the size phase is an `UploadError`. -/
theorem pp_size_raised {a : AssetSpec} {ys : List Rec} {e : Exc}
    (h : pp_size a = (ys, .raised e)) : ∃ s, e = .uploadError s := by
  unfold pp_size at h
  split at h
  · simp at h
  · split at h <;> simp only [Prod.mk.injEq, PhaseExit.raised.injEq] at h
    · simp at h
    · exact ⟨_, h.2.symm⟩
    · exact ⟨_, h.2.symm⟩

/-- Any exception raised by the validation phase is an `UploadError`. -/
theorem pp_validate_raised {a : AssetSpec} {env : Env} {ys : List Rec} {e : Exc}
    (h : pp_validate a env = (ys, .raised e)) : e = .uploadError "failed validation" := by
  unfold pp_validate at h
  repeat' split at h
  all_goals simp_all

/-- The dandiset-metadata phase never raises. -/
theorem pp_special_not_raised {a : AssetSpec} {env : Env} {ys : List Rec} {e : Exc}
    (h : pp_special a env = (ys, .raised e)) : False := by
  unfold pp_special at h
  repeat' split at h
  all_goals simp_all

/-- Any exception raised by the digest phase is an `UploadError`. -/
theorem pp_digest_raised {a : AssetSpec} {ys : List Rec} {e : Exc}
    (h : pp_digest a = (ys, .error e)) : ∃ s, e = .uploadError s := by
  unfold pp_digest at h
  split at h
  · simp at h
  · split at h <;> simp only [Prod.mk.injEq, Except.error.injEq] at h
    · simp at h
    · exact ⟨_, h.2.symm⟩

/-- Any exception raised by the extraction/transfer phase is an
`UploadError`. -/
theorem pp_upload_raised {env : Env} {ys : List Rec} {e : Exc}
    (h : pp_upload env = (ys, .raised e)) : ∃ s, e = .uploadError s := by
  unfold pp_upload at h
  split at h <;> simp only [Prod.mk.injEq, PhaseExit.raised.injEq] at h
  · exact ⟨_, h.2.symm⟩
  · simp at h

/-- A `ValueError` can escape `process_path` only out of
`check_replace_asset`, consulted on a present remote record with the
digest the digest phase produced. -/
theorem process_path_valueError {a : AssetSpec} {env : Env} {m : String}
    (h : (process_path a env).2 = some (.valueError m)) :
    ∃ extant file_etag ys,
      env.remote = some extant ∧ pp_digest a = (ys, .ok file_etag) ∧
      check_replace_asset ⟨a.kind = .zarrAsset, a.modified⟩ extant env.existing file_etag =
        .error (.valueError m) := by
  unfold process_path at h
  cases h1 : pp_size a with
  | mk ys1 x1 =>
  rw [h1] at h
  cases x1 with
  | raised e =>
      simp only at h
      obtain ⟨s, rfl⟩ := pp_size_raised h1
      simp at h
  | ret => simp at h
  | next =>
  simp only at h
  cases h2 : pp_validate a env with
  | mk ys2 x2 =>
  rw [h2] at h
  cases x2 with
  | raised e =>
      simp only at h
      have he := pp_validate_raised h2
      subst he
      simp at h
  | ret => simp at h
  | next =>
  simp only at h
  cases h3 : pp_special a env with
  | mk ys3 x3 =>
  rw [h3] at h
  cases x3 with
  | raised e => exact (pp_special_not_raised h3).elim
  | ret => simp at h
  | next =>
  simp only at h
  cases h4 : pp_digest a with
  | mk ys4 x4 =>
  rw [h4] at h
  cases x4 with
  | error e =>
      simp only at h
      obtain ⟨s, rfl⟩ := pp_digest_raised h4
      simp at h
  | ok file_etag =>
  simp only at h
  cases h5 : pp_compare a env file_etag with
  | mk ys5 x5 =>
  rw [h5] at h
  cases x5 with
  | ret => simp at h
  | raised e =>
      simp only at h
      simp only [Prod.snd, Option.some.injEq] at h
      subst h
      unfold pp_compare at h5
      cases hr : env.remote with
      | none => rw [hr] at h5; simp at h5
      | some extant =>
          rw [hr] at h5
          simp only at h5
          cases hc : check_replace_asset ⟨a.kind = .zarrAsset, a.modified⟩ extant
              env.existing file_etag with
          | error e2 =>
              rw [hc] at h5
              simp only [Prod.mk.injEq, PhaseExit.raised.injEq] at h5
              exact ⟨extant, file_etag, ys4, rfl, rfl, h5.2 ▸ hc⟩
          | ok p =>
              rw [hc] at h5
              obtain ⟨replace, out⟩ := p
              simp only at h5
              split at h5 <;> simp at h5
  | next =>
  simp only at h
  cases h6 : pp_upload env with
  | mk ys6 x6 =>
  rw [h6] at h
  cases x6 with
  | raised e =>
      simp only at h
      obtain ⟨s, rfl⟩ := pp_upload_raised h6
      simp at h
  | ret => simp at h
  | next => simp at h

/-- C10: an invalid `existing` policy string raises `ValueError` only when
`check_replace_asset` is actually consulted for a non-chunked asset with a
remote record: (1) with no remote record no `ValueError` can arise, for
any policy string; (2) for a chunked (Zarr) asset no `ValueError` can
arise, for any policy string; (3) when a valid non-chunked asset with a
remote record reaches the engine under a policy string that is none of
`error`, `skip`, `overwrite`, `refresh`, `force`, the run errors with the
`ValueError`. -/
theorem invalid_existing_only_when_consulted :
    (∀ (a : AssetSpec) (env : Env) (m : String), env.remote = none →
      (process_path a env).2 ≠ some (.valueError m)) ∧
    (∀ (a : AssetSpec) (env : Env) (m : String), a.kind = .zarrAsset →
      (process_path a env).2 ≠ some (.valueError m)) ∧
    (∀ (a : AssetSpec) (env : Env) (n : Nat) (d : Digest) (r : RemoteMeta),
      a.kind = .blobAsset → a.sizeResult = .ok n → a.validationErrors = 0 →
      a.digestResult = .ok d → env.remote = some r →
      env.existing ≠ "error" → env.existing ≠ "skip" → env.existing ≠ "overwrite" →
      env.existing ≠ "refresh" → env.existing ≠ "force" →
      (process_path a env).2 = some (.valueError (invalidExistingMsg env.existing))) := by
  refine ⟨fun a env m hr hcon => ?_, fun a env m hk hcon => ?_,
    fun a env n d r hk hs hv hd hr h1 h2 h3 h4 h5 => ?_⟩
  · obtain ⟨extant, file_etag, ys, hsome, -, -⟩ := process_path_valueError hcon
    rw [hr] at hsome
    exact Option.noConfusion hsome
  · obtain ⟨extant, file_etag, ys, -, -, hcheck⟩ := process_path_valueError hcon
    simp [check_replace_asset, hk] at hcheck
  · by_cases hval : env.validation = "skip"
    · simp [process_path, pp_size, pp_validate, pp_special, pp_digest, pp_compare,
        check_replace_asset, hk, hs, hv, hd, hr, hval, h1, h2, h3, h4, h5]
    · simp [process_path, pp_size, pp_validate, pp_special, pp_digest, pp_compare,
        check_replace_asset, hk, hs, hv, hd, hr, hval, h1, h2, h3, h4, h5]

/-- Witness for C10 at concrete inputs: a new asset under the bogus policy
completes with no error, a Zarr asset under the bogus policy yields no
ValueError, and a non-chunked asset with a remote record under the bogus
policy raises the ValueError. -/
theorem invalid_existing_only_when_consulted_witness :
    (process_path
      { path := "x.nwb", kind := .blobAsset, sizeResult := .ok 5,
        validationErrors := 0, digestResult := .ok ⟨"dandi-etag", "d1"⟩, modified := 10 }
      { existing := "bogus", validation := "require",
        upload_dandiset_metadata := false, remote := none,
        metadataResult := .ok (), uploadEvents := [] }).2 ≠
      some (.valueError (invalidExistingMsg "bogus")) ∧
    (process_path
      { path := "x.zarr", kind := .zarrAsset, sizeResult := .ok 5,
        validationErrors := 0, digestResult := .ok ⟨"dandi-etag", "d1"⟩, modified := 10 }
      { existing := "bogus", validation := "require",
        upload_dandiset_metadata := false,
        remote := some ⟨some 10, [("dandi-etag", "d1")]⟩,
        metadataResult := .ok (), uploadEvents := [] }).2 ≠
      some (.valueError (invalidExistingMsg "bogus")) ∧
    (process_path
      { path := "x.nwb", kind := .blobAsset, sizeResult := .ok 5,
        validationErrors := 0, digestResult := .ok ⟨"dandi-etag", "d1"⟩, modified := 10 }
      { existing := "bogus", validation := "require",
        upload_dandiset_metadata := false,
        remote := some ⟨some 10, [("dandi-etag", "d1")]⟩,
        metadataResult := .ok (), uploadEvents := [] }).2 =
      some (.valueError (invalidExistingMsg "bogus")) :=
  ⟨invalid_existing_only_when_consulted.1 _ _ _ rfl,
   invalid_existing_only_when_consulted.2.1 _ _ _ rfl,
   invalid_existing_only_when_consulted.2.2 _ _ 5 ⟨"dandi-etag", "d1"⟩
     ⟨some 10, [("dandi-etag", "d1")]⟩ rfl rfl rfl rfl rfl
     (by decide) (by decide) (by decide) (by decide) (by decide)⟩

/-- The run-wide environment of one `upload` call, shared by every asset:
the conflict policy and validation mode plus per-path oracles for the
remote record lookup, the metadata extraction outcome and the upload
progress events. -/
structure GlobalEnv where
  existing : String
  validation : String
  upload_dandiset_metadata : Bool
  remoteOf : String → Option RemoteMeta
  metadataOf : String → Except String Unit
  uploadEventsOf : String → List UploadEvent

/-- The `Env` seen by `process_path` for one asset under a run-wide
environment. -/
def envFor (g : GlobalEnv) (a : AssetSpec) : Env :=
  { existing := g.existing, validation := g.validation,
    upload_dandiset_metadata := g.upload_dandiset_metadata,
    remote := g.remoteOf a.path, metadataResult := g.metadataOf a.path,
    uploadEvents := g.uploadEventsOf a.path }

/-- The value `upload_err` holds after the batch loop: the exception of the
first asset whose job raised, in dispatch order (later exceptions never
overwrite it). -/
def firstBatchError (g : GlobalEnv) : List AssetSpec → Option Exc
  | [] => none
  | a :: rest =>
    match (process_path a (envFor g a)).2 with
    | some e => some e
    | none => firstBatchError g rest

/-- Keep an already-observed exception, else take the new candidate: the
guard `if upload_err is None` around `upload_err = exc`. -/
def keepFirst (x y : Option Exc) : Option Exc :=
  match x with
  | some e => some e
  | none => y

/-- The batch loop of `upload` (lines 324-348) together with the `except`
block of `process_path` (lines 283-293): every asset is run in order and
its path and reported records are appended to the outcome table, the
first observed exception being kept in `upload_err`.  Under `devel_debug`
the generator re-raises into the loop body, whose `except ValueError`
handler (lines 346-347) turns a `ValueError` into the asset error record
and lets the batch continue, while any other exception escapes the run
immediately; without `devel_debug` the loop merely stores the generator
(line 345), so nothing raises there and every exception is captured
inside `process_path` itself.  The outcome entry of an asset is the
sequence of records reported for it: its yields, followed by the
`error_file` record of its captured or handler-recorded exception. -/
def runBatchAux (devel_debug : Bool) (g : GlobalEnv) :
    List AssetSpec → Option Exc → List (String × List Rec) →
    Except Exc (List (String × List Rec) × Option Exc)
  | [], upload_err, outs => .ok (outs, upload_err)
  | a :: rest, upload_err, outs =>
    match (process_path a (envFor g a)).2 with
    | none =>
        runBatchAux devel_debug g rest upload_err
          (outs ++ [(a.path, (process_path a (envFor g a)).1)])
    | some e =>
        if devel_debug then
          match e with
          | .valueError m =>
              runBatchAux devel_debug g rest (keepFirst upload_err (some (.valueError m)))
                (outs ++ [(a.path, (process_path a (envFor g a)).1)])
          | _ => .error e
        else
          runBatchAux devel_debug g rest (keepFirst upload_err (some e))
            (outs ++ [(a.path, (process_path a (envFor g a)).1)])

/-- Modelled from the spec: `path_is_subpath` (imported by `upload` from
the repository module `dandi/utils.py`, which is not among the sources)
tests whether a logical path falls strictly under a given input path. -/
def path_is_subpath (path rootpath : String) : Bool :=
  decide (rootpath ≠ "") && (rootpath ++ "/").data.isPrefixOf path.data

/-- The computation `reduce(os.path.commonprefix, relpaths)` of the
delete-sync pass (line 377).  `functools.reduce` applies its function to
two arguments, while `os.path.commonprefix` is a function of one list
argument, so the reduction raises `TypeError` whenever it combines two or
more relative paths; with exactly one element `reduce` returns it without
calling the function, and with none it raises `TypeError`. -/
def reduce_common_pfx : List String → Except Exc String
  | [] => .error (.typeError "reduce() of empty iterable with no initial value")
  | [r] => .ok r
  | _ :: _ :: _ =>
      .error (.typeError "commonprefix() takes 1 positional argument but 2 were given")

/-- The function `dandi.upload.upload` from the batch loop onwards (lines 324-389): run
every asset, re-raise the first captured error after the whole loop, and
otherwise, when `sync` is requested, reduce the common prefix of the
relative input paths, list the remote assets under that prefix, select
those falling under one of the input paths with no corresponding local
file, and delete them after interactive confirmation.  The result is the
per-asset outcome table together with the deleted remote asset paths. -/
def upload_model (devel_debug sync confirmed : Bool) (g : GlobalEnv)
    (assets : List AssetSpec) (relpaths : List String)
    (remote_paths : List String) (localExists : String → Bool) :
    Except Exc (List (String × List Rec) × List String) :=
  match runBatchAux devel_debug g assets none [] with
  | .error e => .error e
  | .ok (outs, upload_err) =>
    match upload_err with
    | some e => .error e
    | none =>
      if sync then
        match reduce_common_pfx relpaths with
        | .error e => .error e
        | .ok pathPfx =>
          let to_delete :=
            (remote_paths.filter (fun ap => pathPfx.data.isPrefixOf ap.data)).filter
              (fun ap =>
                (relpaths.any (fun p => decide (p = "") || path_is_subpath ap p)) &&
                !localExists ap)
          if to_delete ≠ [] ∧ confirmed then .ok (outs, to_delete)
          else .ok (outs, [])
      else .ok (outs, [])

/-- Unfolding of the non-debug batch loop: every asset contributes one
outcome entry, in order, and `upload_err` ends as the first observed
error. -/
theorem runBatchAux_ok (g : GlobalEnv) :
    ∀ (assets : List AssetSpec) (err : Option Exc) (outs : List (String × List Rec)),
      runBatchAux false g assets err outs =
        .ok (outs ++ assets.map (fun a => (a.path, (process_path a (envFor g a)).1)),
             keepFirst err (firstBatchError g assets)) := by
  intro assets
  induction assets with
  | nil =>
      intro err outs
      cases err <;> simp [runBatchAux, firstBatchError, keepFirst]
  | cons a rest ih =>
      intro err outs
      unfold runBatchAux firstBatchError
      cases hpe : (process_path a (envFor g a)).2 with
      | none => simp [ih]
      | some e => cases err <;> simp [ih, keepFirst]

/-- Unfolding of the debug batch loop: the first failing asset propagates
its exception immediately, provided that exception is not a `ValueError`
(a `ValueError` would be caught by the `except ValueError` handler of the
loop body). -/
theorem runBatchAux_debug (g : GlobalEnv) :
    ∀ (pre : List AssetSpec), (∀ b ∈ pre, (process_path b (envFor g b)).2 = none) →
      ∀ (a : AssetSpec) (post : List AssetSpec) (e : Exc) (err : Option Exc)
        (outs : List (String × List Rec)),
        (process_path a (envFor g a)).2 = some e →
        (∀ m, e ≠ .valueError m) →
        runBatchAux true g (pre ++ a :: post) err outs = .error e := by
  intro pre
  induction pre with
  | nil =>
      intro _ a post e err outs hpe hnv
      simp only [List.nil_append]
      unfold runBatchAux
      rw [hpe]
      cases e with
      | valueError m => exact absurd rfl (hnv m)
      | uploadError m => rfl
      | fileExistsError m => rfl
      | typeError m => rfl
      | assertionError => rfl
  | cons b rest ih =>
      intro hpre a post e err outs hpe hnv
      unfold runBatchAux
      simp only [List.cons_append]
      rw [hpre b (by simp)]
      exact ih (fun c hc => hpre c (by simp [hc])) a post e err _ hpe hnv

/-- A debug batch whose failures are all ValueErrors runs exactly like the
default loop: each ValueError is recorded by the `except ValueError`
handler and the batch continues. -/
theorem runBatchAux_debug_valueErrors (g : GlobalEnv) :
    ∀ (assets : List AssetSpec),
      (∀ b ∈ assets, (process_path b (envFor g b)).2 = none ∨
        ∃ m, (process_path b (envFor g b)).2 = some (.valueError m)) →
      ∀ (err : Option Exc) (outs : List (String × List Rec)),
        runBatchAux true g assets err outs = runBatchAux false g assets err outs := by
  intro assets
  induction assets with
  | nil => intro _ err outs; rfl
  | cons b rest ih =>
      intro hall err outs
      unfold runBatchAux
      rcases hall b (by simp) with hnone | ⟨m, hval⟩
      · rw [hnone]
        exact ih (fun c hc => hall c (by simp [hc])) err _
      · rw [hval]
        exact ih (fun c hc => hall c (by simp [hc])) (keepFirst err (some (.valueError m))) _

/-- C5 counterexample: in debug mode the `except ValueError` handler of
the batch loop captures a first ValueError (the invalid policy string hit
at an asset with a remote record) and the batch continues, so a later
UploadError escapes mid-loop: the exception leaving the run is not the
first-observed error, and the first error did not propagate immediately.
This refutes both the only-the-first-error clause and the debug clause of
the claim as stated. -/
theorem debug_first_error_counterexample :
    upload_model true false false
      { existing := "bogus", validation := "skip",
        upload_dandiset_metadata := false,
        remoteOf := fun _ => some ⟨some 0, [("dandi-etag", "d1")]⟩,
        metadataOf := fun _ => .ok (), uploadEventsOf := fun _ => [] }
      [{ path := "a.nwb", kind := .blobAsset, sizeResult := .ok 5,
         validationErrors := 0, digestResult := .ok ⟨"dandi-etag", "d1"⟩, modified := 0 },
       { path := "bad.nwb", kind := .blobAsset, sizeResult := .error .fileNotFound,
         validationErrors := 0, digestResult := .ok ⟨"dandi-etag", "d1"⟩, modified := 0 }]
      [""] [] (fun _ => false) = .error (.uploadError "File not found") ∧
    firstBatchError
      { existing := "bogus", validation := "skip",
        upload_dandiset_metadata := false,
        remoteOf := fun _ => some ⟨some 0, [("dandi-etag", "d1")]⟩,
        metadataOf := fun _ => .ok (), uploadEventsOf := fun _ => [] }
      [{ path := "a.nwb", kind := .blobAsset, sizeResult := .ok 5,
         validationErrors := 0, digestResult := .ok ⟨"dandi-etag", "d1"⟩, modified := 0 },
       { path := "bad.nwb", kind := .blobAsset, sizeResult := .error .fileNotFound,
         validationErrors := 0, digestResult := .ok ⟨"dandi-etag", "d1"⟩, modified := 0 }] =
      some (.valueError (invalidExistingMsg "bogus")) ∧
    (Exc.uploadError "File not found" ≠ .valueError (invalidExistingMsg "bogus")) :=
  ⟨by decide, by decide, by decide⟩

/-- C5 amended: in the default mode the batch loop attempts every asset
and returns one outcome entry per asset in dispatch order together with
the first observed error, which the coordinator re-raises after the whole
loop while the other outcomes have been produced.  Under `devel_debug`, a
first error that is not a `ValueError` propagates immediately; a
`ValueError`, however, is caught by the except-ValueError handler of the
loop body, recorded as the asset error record, and the batch continues
exactly as in the default mode. -/
theorem batch_first_error_reraise :
    (∀ (g : GlobalEnv) (assets : List AssetSpec),
      runBatchAux false g assets none [] =
        .ok (assets.map (fun a => (a.path, (process_path a (envFor g a)).1)),
             firstBatchError g assets)) ∧
    (∀ (g : GlobalEnv) (assets : List AssetSpec) (e : Exc) (sync confirmed : Bool)
        (relpaths remote_paths : List String) (localExists : String → Bool),
      firstBatchError g assets = some e →
      upload_model false sync confirmed g assets relpaths remote_paths localExists =
        .error e) ∧
    (∀ (g : GlobalEnv) (pre post : List AssetSpec) (a : AssetSpec) (e : Exc)
        (sync confirmed : Bool) (relpaths remote_paths : List String)
        (localExists : String → Bool),
      (∀ b ∈ pre, (process_path b (envFor g b)).2 = none) →
      (process_path a (envFor g a)).2 = some e →
      (∀ m, e ≠ .valueError m) →
      upload_model true sync confirmed g (pre ++ a :: post) relpaths remote_paths
        localExists = .error e) ∧
    (∀ (g : GlobalEnv) (assets : List AssetSpec),
      (∀ b ∈ assets, (process_path b (envFor g b)).2 = none ∨
        ∃ m, (process_path b (envFor g b)).2 = some (.valueError m)) →
      ∀ (err : Option Exc) (outs : List (String × List Rec)),
        runBatchAux true g assets err outs = runBatchAux false g assets err outs) := by
  refine ⟨fun g assets => ?_, fun g assets e sync confirmed rp rem lex h => ?_,
    fun g pre post a e sync confirmed rp rem lex hpre hpe hnv => ?_,
    fun g assets hall err outs => runBatchAux_debug_valueErrors g assets hall err outs⟩
  · simp [runBatchAux_ok, keepFirst]
  · unfold upload_model
    rw [runBatchAux_ok g assets none []]
    simp [keepFirst, h]
  · unfold upload_model
    rw [runBatchAux_debug g pre hpre a post e none [] hpe hnv]

/-- Witness for C5 amended at concrete inputs: a batch of one asset whose
size read fails with FileNotFound re-raises UploadError File not found in
the default mode, and the same UploadError propagates immediately in
debug mode. -/
theorem batch_first_error_reraise_witness :
    upload_model false false false
      { existing := "refresh", validation := "skip",
        upload_dandiset_metadata := false, remoteOf := fun _ => none,
        metadataOf := fun _ => .ok (), uploadEventsOf := fun _ => [] }
      [{ path := "bad.nwb", kind := .blobAsset, sizeResult := .error .fileNotFound,
         validationErrors := 0, digestResult := .ok ⟨"dandi-etag", "d1"⟩, modified := 0 }]
      [""] [] (fun _ => false) = .error (.uploadError "File not found") ∧
    upload_model true false false
      { existing := "refresh", validation := "skip",
        upload_dandiset_metadata := false, remoteOf := fun _ => none,
        metadataOf := fun _ => .ok (), uploadEventsOf := fun _ => [] }
      [{ path := "bad.nwb", kind := .blobAsset, sizeResult := .error .fileNotFound,
         validationErrors := 0, digestResult := .ok ⟨"dandi-etag", "d1"⟩, modified := 0 }]
      [""] [] (fun _ => false) = .error (.uploadError "File not found") :=
  ⟨batch_first_error_reraise.2.1 _ _ _ false false [""] [] (fun _ => false) (by decide),
   batch_first_error_reraise.2.2.1 _ [] [] _ _ false false [""] [] (fun _ => false)
     (by simp) (by decide) (fun m h => Exc.noConfusion h)⟩

/-- C8: the delete-sync pass crashes whenever two or more input paths are
given: the common prefix is computed by reducing the unary
`os.path.commonprefix` over the relative paths with `functools.reduce`,
which calls it with two arguments.  Even with every upload successful, a
`sync` run with input paths `sub-01` and `sub-02` raises `TypeError`
before any remote listing, confirmation or deletion. -/
theorem sync_common_pfx_type_error :
    upload_model false true true
      { existing := "refresh", validation := "skip",
        upload_dandiset_metadata := false, remoteOf := fun _ => none,
        metadataOf := fun _ => .ok (), uploadEventsOf := fun _ => [] }
      [{ path := "sub-01/a.nwb", kind := .blobAsset, sizeResult := .ok 5,
         validationErrors := 0, digestResult := .ok ⟨"dandi-etag", "d1"⟩, modified := 0 }]
      ["sub-01", "sub-02"] ["sub-01/a.nwb", "sub-02/b.nwb"] (fun _ => false) =
      .error (.typeError "commonprefix() takes 1 positional argument but 2 were given") := by
  decide

/-- One reachable state of the shared `process_paths` set: the batch loop
admits a path only after waiting until fewer than 10 paths are being
processed (lines 324-330; the wait is the `while len(process_paths) >= 10`
sleep-poll loop), and each finishing generator removes its own path in its
`finally` block (line 295). -/
inductive SchedReach : Finset String → Prop
  | init : SchedReach ∅
  | acquire (s : Finset String) (p : String) : SchedReach s → s.card < 10 →
      SchedReach (insert p s)
  | finish (s : Finset String) (p : String) : SchedReach s → SchedReach (s.erase p)

/-- C6: every reachable state of the scheduler has at most 10 assets in
flight, and whenever the count is below the cap a waiting asset is
admitted (admission blocks at the poll loop, the asset is never dropped).
The fixed 0.5-second polling interval of the wait loop is a real-time
property abstracted into the blocking admission rule. -/
theorem scheduler_inflight_bound :
    (∀ s : Finset String, SchedReach s → s.card ≤ 10) ∧
    (∀ (s : Finset String) (p : String), SchedReach s → s.card < 10 →
      SchedReach (insert p s)) := by
  constructor
  · intro s h
    induction h with
    | init => simp
    | acquire s p hs hlt ih => exact le_trans (Finset.card_insert_le _ _) hlt
    | finish s p hs ih => exact le_trans Finset.card_erase_le ih
  · exact fun s p hs hlt => SchedReach.acquire s p hs hlt

/-- Witness for C6 at a concrete state: the empty state is reachable, one
path is admitted into it, and the resulting state respects the cap. -/
theorem scheduler_inflight_bound_witness :
    SchedReach (insert "sub-01/a.nwb" ∅) ∧
      (insert "sub-01/a.nwb" (∅ : Finset String)).card ≤ 10 :=
  ⟨scheduler_inflight_bound.2 ∅ "sub-01/a.nwb" SchedReach.init (by simp),
   scheduler_inflight_bound.1 _
     (scheduler_inflight_bound.2 ∅ "sub-01/a.nwb" SchedReach.init (by simp))⟩
